import Mathlib

/-!
# Quantiv forecast reconciliation and serving core: a shallow embedding

This file embeds the parts of the Quantiv repository that the specification
talks about, and proves (or refutes) the spec's claims against them.

Source correspondence:
* `apps/ml/pipeline.py` — baseline calculator (`compute_baseline_forecasts`),
  IV fallback (`latest_iv_from_parquet(...) or 0.2`), quantile blending
  (`merge_predictions_into_rows`), columnar sink (`upsert_parquet_forecasts`).
* `apps/backend/main.py` — Redis freshness cache (`ExpectedMoveService` and the
  `/em/forecast` endpoint), the federated `HybridBackend` read operations.

Timestamps and dates are modelled as natural numbers (seconds / days since an
epoch), monetary quantities as rationals, and the volatility formula over the
reals (the Python code computes `(d / 365.0) ** 0.5` with float sqrt; we model
ideal real arithmetic).
-/

/- ### Reducible string comparison

Python compares strings lexicographically by code point; Lean's `String` order
is the same relation but its `Decidable` instance does not reduce in the
kernel, so we define a structurally recursive comparator and prove it agrees
with Mathlib's `<` on `String`. -/

/-- Strict lexicographic comparison of character lists by code point. -/
def charListLt : List Char → List Char → Bool
  | [], [] => false
  | [], _ :: _ => true
  | _ :: _, [] => false
  | c :: cs, d :: ds => if c < d then true else if d < c then false else charListLt cs ds

/-- Strict lexicographic comparison of strings by code point, as Python does. -/
def strLt (a b : String) : Bool := charListLt a.toList b.toList

/- ### Baseline Calculator (`apps/ml/pipeline.py`, `compute_baseline_forecasts`)

The Python loop body is, for each expiry / fixed horizon with `dte` calendar
days:
```
em = EM_ALPHA * iv * (dte / 365.0) ** 0.5
band68_low = 0.75 * em
band68_high = 1.25 * em
band95_low = 0.50 * em
band95_high = 1.50 * em
```
`EM_ALPHA` comes from the environment and defaults to `1.0`. -/

/-- Default value of the `EM_ALPHA` environment variable (`"1.0"`). -/
noncomputable def EM_ALPHA : ℝ := 1

/-- Models `em = EM_ALPHA * iv * (dte / 365.0) ** 0.5` for a horizon of `d` days. -/
noncomputable def em_of (alpha iv : ℝ) (d : ℕ) : ℝ := alpha * iv * Real.sqrt ((d : ℝ) / 365)

/-- The numeric fields of one baseline forecast record. -/
structure BaselineBands where
  em_baseline : ℝ
  band68_low : ℝ
  band68_high : ℝ
  band95_low : ℝ
  band95_high : ℝ

/-- The bands produced by `compute_baseline_forecasts` for one record. -/
noncomputable def compute_baseline_bands (alpha iv : ℝ) (d : ℕ) : BaselineBands :=
  { em_baseline := em_of alpha iv d
    band68_low := 0.75 * em_of alpha iv d
    band68_high := 1.25 * em_of alpha iv d
    band95_low := 0.50 * em_of alpha iv d
    band95_high := 1.50 * em_of alpha iv d }

/-- Models `iv = latest_iv_from_parquet(con, PARQUET_ROOT, sym) or 0.2`: Python's
`or` replaces both `None` and the falsy float `0.0` by the fallback `0.2`. -/
def latest_iv_or_fallback (stored : Option ℚ) : ℚ :=
  match stored with
  | none => 0.2
  | some x => if x = 0 then 0.2 else x

/- ### Forecast rows (`apps/ml/pipeline.py`)

A pipeline row is the 9-tuple
`(underlying, quote_ts, exp_date, horizon, em_baseline, band68_low, band68_high, band95_low, band95_high)`;
its identity key is `(underlying, quote_ts, exp_date, horizon)`. -/

/-- One forecast row as built by `compute_baseline_forecasts`. -/
structure FRow where
  underlying : String
  quote_ts : ℕ
  exp_date : ℕ
  horizon : String
  em_baseline : ℚ
  band68_low : ℚ
  band68_high : ℚ
  band95_low : ℚ
  band95_high : ℚ
  deriving DecidableEq

/-- The identity key `(underlying, quote_ts, exp_date, horizon)`. -/
def FRow.key (r : FRow) : String × ℕ × ℕ × String :=
  (r.underlying, r.quote_ts, r.exp_date, r.horizon)

/- ### Quantile Blender (`merge_predictions_into_rows`) -/

/-- One prediction quadruple from `predict_lightgbm_if_possible`; each band is
independently optional (`None` when the corresponding models are missing). -/
structure BandPred where
  band68_low : Option ℚ
  band68_high : Option ℚ
  band95_low : Option ℚ
  band95_high : Option ℚ
  deriving DecidableEq

/-- Models `preds.get(k)` on the prediction dict, modelled as an association list. -/
def predLookup (preds : List ((String × ℕ × ℕ × String) × BandPred))
    (k : String × ℕ × ℕ × String) : Option BandPred :=
  match preds with
  | [] => none
  | (k', p) :: rest => if k' = k then some p else predLookup rest k

/-- The body of the row loop: each band is overridden only when the prediction
for it is non-null (`p.get("band68_low", b68l) if p.get("band68_low") is not
None else b68l`, etc.); the key fields and `em` are rebuilt unchanged. -/
def applyPred (r : FRow) (p : BandPred) : FRow :=
  { r with
    band68_low := p.band68_low.getD r.band68_low
    band68_high := p.band68_high.getD r.band68_high
    band95_low := p.band95_low.getD r.band95_low
    band95_high := p.band95_high.getD r.band95_high }

/-- Models `merge_predictions_into_rows(rows, preds)`: `if not preds: return rows`,
otherwise rebuild every row, overriding bands where a matching key exists. -/
def merge_predictions_into_rows (rows : List FRow)
    (preds : List ((String × ℕ × ℕ × String) × BandPred)) : List FRow :=
  if preds = [] then rows
  else rows.map (fun r =>
    match predLookup preds r.key with
    | none => r
    | some p => applyPred r p)

/- ### Columnar sink (`upsert_parquet_forecasts`) -/

/-- A stored row: a forecast row plus the `created_at` write timestamp. -/
structure SRow extends FRow where
  created_at : ℕ
  deriving DecidableEq

/-- The identity key of a stored row (ignores `created_at`). -/
def SRow.key (s : SRow) : String × ℕ × ℕ × String := s.toFRow.key

/-- Models `df_new["created_at"] = datetime.now(timezone.utc)`. -/
def attachCreated (t : ℕ) (r : FRow) : SRow := { toFRow := r, created_at := t }

/-- Models `df_all.drop_duplicates(subset=key, keep="last")`: a row survives exactly
when no later row has the same identity key. -/
def dedupKeepLast : List SRow → List SRow
  | [] => []
  | x :: xs =>
    if xs.any (fun y => decide (y.key = x.key)) then dedupKeepLast xs
    else x :: dedupKeepLast xs

/-- Boolean comparison of stored rows by identity key, lexicographically on
`(underlying, quote_ts, exp_date, horizon)` with ties allowed (reflexive). -/
def rowLeB (a b : SRow) : Bool :=
  strLt a.underlying b.underlying ||
    (decide (a.underlying = b.underlying) &&
      (decide (a.quote_ts < b.quote_ts) ||
        (decide (a.quote_ts = b.quote_ts) &&
          (decide (a.exp_date < b.exp_date) ||
            (decide (a.exp_date = b.exp_date) &&
              (strLt a.horizon b.horizon || decide (a.horizon = b.horizon)))))))

/-- The sort relation used for `df_all.sort_values(by=key_columns)`. -/
def rowle (a b : SRow) : Prop := rowLeB a b = true

instance : DecidableRel rowle := fun a b => inferInstanceAs (Decidable (rowLeB a b = true))

/-- Models `df_all.sort_values(by=["underlying", "quote_ts", "exp_date", "horizon"])`. -/
def sortByKey (l : List SRow) : List SRow := List.insertionSort rowle l

/-- State of the dataset file before the write: missing, unreadable, or
readable with the given rows. -/
inductive PriorState where
  | absent
  | corrupt
  | ok (rows : List SRow)

/-- Models `parquet_path.exists()`. -/
def priorExists : PriorState → Bool
  | .absent => false
  | _ => true

/-- Models `pd.read_parquet(parquet_path)`: raises on a corrupt file. -/
def read_parquet_prior : PriorState → Except String (List SRow)
  | .absent => .error "file not found"
  | .corrupt => .error "corrupt parquet file"
  | .ok rows => .ok rows

/-- Result of the columnar upsert: the replaced dataset plus whether any
warning was logged on the way. -/
structure UpsertResult where
  rows : List SRow
  warned : Bool
  deriving DecidableEq

/-- Models `upsert_parquet_forecasts(rows, data_dir)`: if the file exists, read it
(recovering a corrupt file as an empty frame, with no log output in the
`except` branch), concatenate, drop duplicate keys keeping the last
occurrence, and sort; if the file does not exist, `df_all = df_new` and the
dedup step is skipped. The write never fails on a bad prior file. -/
def upsert_parquet_forecasts (new : List FRow) (t : ℕ) (prior : PriorState) : UpsertResult :=
  let df_new := new.map (attachCreated t)
  if priorExists prior then
    let df_old :=
      match read_parquet_prior prior with
      | .ok rows => rows
      | .error _ => []
    { rows := sortByKey (dedupKeepLast (df_old ++ df_new)), warned := false }
  else
    { rows := sortByKey df_new, warned := false }

/- ### Freshness cache (`apps/backend/main.py`)

Redis is modelled by an optional entry carrying its write time and TTL;
`redis_get` returns the value only while the entry has not expired
(`setex key ttl value` semantics). Times are in seconds. -/

/-- One Redis entry: the stored value, when it was written, and its TTL. -/
structure CacheEntry (α : Type) where
  value : α
  writeTime : ℕ
  ttl : ℕ
  deriving DecidableEq

/-- Models `await redis_client.get(key)` at wall-clock `now`. -/
def redis_get {α : Type} (entry : Option (CacheEntry α)) (now : ℕ) : Option α :=
  match entry with
  | none => none
  | some c => if now < c.writeTime + c.ttl then some c.value else none

/-- The `/api/expected-move` response payload; `timestamp` is the embedded
generation time set with `datetime.now()` when the response was computed. -/
structure AggPayload where
  symbol : String
  timestamp : ℕ
  forecasts : List FRow
  deriving DecidableEq

/-- Models `ExpectedMoveService.get_cached_forecast`: return the cached payload only
when it exists and `datetime.now() - cached_time < timedelta(minutes=5)`. -/
def get_cached_forecast (entry : Option (CacheEntry AggPayload)) (now : ℕ) :
    Option AggPayload :=
  match redis_get entry now with
  | none => none
  | some d => if now - d.timestamp < 300 then some d else none

/-- Models `ExpectedMoveService.cache_forecast`: `setex(key, 300, data)`. -/
def cache_forecast (data : AggPayload) (now : ℕ) : CacheEntry AggPayload :=
  { value := data, writeTime := now, ttl := 300 }

/-- What a request returned and whether it was served from the cache
(`fromCache = false` means the backing stores were queried). -/
structure ServeResult (α : Type) where
  payload : α
  fromCache : Bool
  deriving DecidableEq

/-- The `/api/expected-move` read path: serve the cached payload if
`get_cached_forecast` accepts it, otherwise recompute from the stores. -/
def expected_move_endpoint (entry : Option (CacheEntry AggPayload))
    (fresh : AggPayload) (now : ℕ) : ServeResult AggPayload :=
  match get_cached_forecast entry now with
  | some c => { payload := c, fromCache := true }
  | none => { payload := fresh, fromCache := false }

/-- The `/em/forecast` response payload. Its fields are `symbol`, `exp`,
`quote_ts`, `horizon` and the bands; the only timestamp it embeds is
`quote_ts`, the data timestamp of the forecast, not a generation time. -/
structure EmPayload where
  symbol : String
  exp : ℕ
  quote_ts : ℕ
  horizon : String
  em_baseline : Option ℚ
  band68_low : Option ℚ
  band68_high : Option ℚ
  band95_low : Option ℚ
  band95_high : Option ℚ
  deriving DecidableEq

/-- The `/em/forecast` read path: `if cached: return EmForecastLatestResponse(**data)`
— any payload still present in Redis is served, with no freshness check on any
timestamp inside the payload. -/
def em_forecast_endpoint (entry : Option (CacheEntry EmPayload))
    (fresh : EmPayload) (now : ℕ) : ServeResult EmPayload :=
  match redis_get entry now with
  | some c => { payload := c, fromCache := true }
  | none => { payload := fresh, fromCache := false }

/-- Models `/em/forecast` cache write: `setex(cache_key, 600, json.dumps(payload))`. -/
def em_forecast_cache_write (p : EmPayload) (now : ℕ) : CacheEntry EmPayload :=
  { value := p, writeTime := now, ttl := 600 }

/- ### Federated reads (`HybridBackend`)

Each operation awaits the DuckDB adapter, then the Postgres adapter, then
merges. Adapter results are modelled as `Except String _`: an exception in
either awaited call propagates through the `do` sequencing exactly as an
uncaught Python exception propagates out of the method. -/

/-- Keep-first deduplication: `seen` set plus append, as in the Python loops. -/
def dedupKeepFirstAux {α κ : Type} [DecidableEq κ] (key : α → κ) :
    List κ → List α → List α
  | _, [] => []
  | seen, x :: xs =>
    if key x ∈ seen then dedupKeepFirstAux key seen xs
    else x :: dedupKeepFirstAux key (key x :: seen) xs

/-- Models `seen = set(); out = []; for rec in l: if key(rec) not in seen: ...`. -/
def dedupKeepFirst {α κ : Type} [DecidableEq κ] (key : α → κ) (l : List α) : List α :=
  dedupKeepFirstAux key [] l

/-- Sort comparison for `out.sort(key=lambda r: (quote_ts, exp_date), reverse=True)`:
descending on both components. -/
def lfSortGe (a b : FRow) : Prop :=
  (decide (b.quote_ts < a.quote_ts) ||
    (decide (b.quote_ts = a.quote_ts) &&
      (decide (b.exp_date < a.exp_date) || decide (b.exp_date = a.exp_date)))) = true

instance : DecidableRel lfSortGe :=
  fun a b => inferInstanceAs (Decidable (_ = true))

/-- Models `HybridBackend.get_latest_forecasts` merge: dedup by
`(quote_ts, exp_date, horizon)` keeping DuckDB rows first, sort descending by
`(quote_ts, exp_date)`, keep 50. -/
def hybrid_merge_latest_forecasts (d p : List FRow) : List FRow :=
  (List.insertionSort lfSortGe
    (dedupKeepFirst (fun r => (r.quote_ts, r.exp_date, r.horizon)) (d ++ p))).take 50

/-- Models `HybridBackend.get_latest_forecasts`. -/
def hybrid_get_latest_forecasts (d p : Except String (List FRow)) :
    Except String (List FRow) := do
  let dv ← d
  let pv ← p
  pure (hybrid_merge_latest_forecasts dv pv)

/-- Models `if d and p: return d if d["quote_ts"] >= p["quote_ts"] else p` then
`return d or p`. -/
def merge_latest_for_exp (d p : Option FRow) : Option FRow :=
  match d, p with
  | some a, some b => if b.quote_ts ≤ a.quote_ts then some a else some b
  | some a, none => some a
  | none, x => x

/-- Models `HybridBackend.get_latest_for_symbol_exp`. -/
def hybrid_get_latest_for_symbol_exp (d p : Except String (Option FRow)) :
    Except String (Option FRow) := do
  let dv ← d
  let pv ← p
  pure (merge_latest_for_exp dv pv)

/-- One `/em/history` item: `quote_ts` plus the five band columns. -/
structure HistRow where
  quote_ts : ℕ
  em_baseline : Option ℚ
  band68_low : Option ℚ
  band68_high : Option ℚ
  band95_low : Option ℚ
  band95_high : Option ℚ
  deriving DecidableEq

/-- Ascending sort relation on history rows (`out.sort(key=quote_ts)`). -/
def histLe (a b : HistRow) : Prop := a.quote_ts ≤ b.quote_ts

instance : DecidableRel histLe := fun a b => inferInstanceAs (Decidable (_ ≤ _))

/-- Models `HybridBackend.get_history_for_symbol_exp` merge: dedup by `quote_ts`
keeping DuckDB first, sort ascending by `quote_ts`. -/
def hybrid_merge_history (d p : List HistRow) : List HistRow :=
  List.insertionSort histLe (dedupKeepFirst (fun r => r.quote_ts) (d ++ p))

/-- Models `HybridBackend.get_history_for_symbol_exp`: DuckDB gets the requested
window, Postgres the clamped `min(last_days, window_days)`. -/
def hybrid_get_history_for_symbol_exp (last_days : ℕ)
    (duckFn pgFn : ℕ → Except String (List HistRow)) (window_days : ℕ) :
    Except String (List HistRow) := do
  let dv ← duckFn window_days
  let pv ← pgFn (min last_days window_days)
  pure (hybrid_merge_history dv pv)

/-- Models `HybridBackend.get_expiries`: `sorted(list(set(d) | set(p)))[:50]`. -/
def hybrid_get_expiries (d p : Except String (List ℕ)) : Except String (List ℕ) := do
  let dv ← d
  let pv ← p
  pure ((List.insertionSort (fun a b => a ≤ b) ((dv ++ pv).dedup)).take 50)

/-- One symbols-with-counts record. -/
structure SymCount where
  symbol : String
  forecast_count : ℕ
  deriving DecidableEq

/-- Models `agg[rec["symbol"]] = agg.get(rec["symbol"], 0) + int(rec["forecast_count"])`
on an insertion-ordered dict, modelled as an association list. -/
def addCount : List SymCount → String → ℕ → List SymCount
  | [], s, c => [{ symbol := s, forecast_count := c }]
  | x :: xs, s, c =>
    if x.symbol = s then { symbol := s, forecast_count := x.forecast_count + c } :: xs
    else x :: addCount xs s c

/-- The aggregation dict built by iterating over `ds + ps`. -/
def aggregate_symbol_counts (recs : List SymCount) : List SymCount :=
  recs.foldl (fun acc r => addCount acc r.symbol r.forecast_count) []

/-- Sort comparison for `out.sort(key=lambda r: (count, symbol), reverse=True)`:
`reverse=True` inverts the whole tuple order, so equal counts are broken by
symbol in descending order. -/
def symGe (a b : SymCount) : Prop :=
  (decide (b.forecast_count < a.forecast_count) ||
    (decide (b.forecast_count = a.forecast_count) &&
      (strLt b.symbol a.symbol || decide (b.symbol = a.symbol)))) = true

instance : DecidableRel symGe := fun a b => inferInstanceAs (Decidable (_ = true))

/-- Models `HybridBackend.get_symbols`: sum counts per symbol, re-sort, keep 100. -/
def hybrid_get_symbols (d p : Except String (List SymCount)) :
    Except String (List SymCount) := do
  let dv ← d
  let pv ← p
  pure ((List.insertionSort symGe (aggregate_symbol_counts (dv ++ pv))).take 100)

/-- One symbol-history record: `quote_ts, horizon, em_baseline, band68_low, band68_high`. -/
structure HorRow where
  quote_ts : ℕ
  horizon : String
  em_baseline : Option ℚ
  band68_low : Option ℚ
  band68_high : Option ℚ
  deriving DecidableEq

/-- Sort comparison for `out.sort(key=lambda r: (quote_ts, horizon), reverse=True)`. -/
def shGe (a b : HorRow) : Prop :=
  (decide (b.quote_ts < a.quote_ts) ||
    (decide (b.quote_ts = a.quote_ts) &&
      (strLt b.horizon a.horizon || decide (b.horizon = a.horizon)))) = true

instance : DecidableRel shGe := fun a b => inferInstanceAs (Decidable (_ = true))

/-- Models `HybridBackend.get_symbol_history_all_horizons`: dedup by
`(quote_ts, horizon)` keeping DuckDB first, sort descending, keep 1000;
Postgres is queried with the clamped `min(last_days, days)` window. -/
def hybrid_get_symbol_history_all_horizons (last_days : ℕ)
    (duckFn pgFn : ℕ → Except String (List HorRow)) (days : ℕ) :
    Except String (List HorRow) := do
  let dv ← duckFn days
  let pv ← pgFn (min last_days days)
  pure ((List.insertionSort shGe
    (dedupKeepFirst (fun r => (r.quote_ts, r.horizon)) (dv ++ pv))).take 1000)

/-- Models `DATA_BACKEND` mode selected at startup. -/
inductive BackendMode where
  | postgres
  | duckdb
  | hybrid

/-- Backend dispatch for `get_latest_for_symbol_exp`: in a single-store mode
the one adapter's outcome, error included, is the outcome of the operation. -/
def dispatch_latest_for_symbol_exp (mode : BackendMode)
    (duck pg : Except String (Option FRow)) : Except String (Option FRow) :=
  match mode with
  | .postgres => pg
  | .duckdb => duck
  | .hybrid => hybrid_get_latest_for_symbol_exp duck pg

/-- Per-symbol running total of `forecast_count` in a list of records. -/
def countFor (s : String) (l : List SymCount) : ℕ :=
  ((l.filter (fun r => decide (r.symbol = s))).map SymCount.forecast_count).sum

/- ### Sample data used by witnesses and counterexamples -/

/-- A concrete forecast row. -/
def sampleRow1 : FRow :=
  { underlying := "AAPL", quote_ts := 100, exp_date := 30, horizon := "to_exp",
    em_baseline := 1, band68_low := 3/4, band68_high := 5/4,
    band95_low := 1/2, band95_high := 3/2 }

/-- A row with the same identity key as `sampleRow1` but a different payload. -/
def sampleRow2 : FRow :=
  { underlying := "AAPL", quote_ts := 100, exp_date := 30, horizon := "to_exp",
    em_baseline := 2, band68_low := 3/2, band68_high := 5/2,
    band95_low := 1, band95_high := 3 }

/-- A cached `/em/forecast` payload whose only embedded timestamp, `quote_ts`,
is far in the past. -/
def staleEmPayload : EmPayload :=
  { symbol := "AAPL", exp := 30, quote_ts := 0, horizon := "to_exp",
    em_baseline := some 1, band68_low := none, band68_high := none,
    band95_low := none, band95_high := none }

/-- A freshly recomputed `/em/forecast` payload. -/
def freshEmPayload : EmPayload :=
  { symbol := "AAPL", exp := 30, quote_ts := 10400, horizon := "to_exp",
    em_baseline := some 2, band68_low := none, band68_high := none,
    band95_low := none, band95_high := none }

/-- A concrete `/api/expected-move` payload generated at time 1000. -/
def sampleAggPayload : AggPayload :=
  { symbol := "AAPL", timestamp := 1000, forecasts := [sampleRow1] }

/- ### Correctness of the reducible string comparator -/

theorem charListLt_iff : ∀ l₁ l₂ : List Char, charListLt l₁ l₂ = true ↔ l₁ < l₂
  | [], [] => by
    constructor
    · intro h
      simp [charListLt] at h
    · intro h
      exact absurd h (lt_irrefl _)
  | [], c :: cs => by
    simp only [charListLt]
    exact iff_of_true trivial (List.nil_lt_cons c cs)
  | c :: cs, [] => by
    constructor
    · intro h
      simp [charListLt] at h
    · intro h
      exact absurd h (List.Lex.not_nil_right _ _)
  | c :: cs, d :: ds => by
    rcases lt_trichotomy c d with h | h | h
    · simp only [charListLt, if_pos h]
      exact iff_of_true trivial (List.Lex.rel h)
    · subst h
      simp only [charListLt, lt_irrefl, if_false]
      rw [charListLt_iff cs ds]
      exact Iff.symm List.Lex.cons_iff
    · have h1 : ¬ c < d := not_lt_of_gt h
      simp only [charListLt, if_neg h1, if_pos h]
      constructor
      · intro hf
        cases hf
      · intro hlex
        cases hlex with
        | cons hl => exact absurd h (lt_irrefl _)
        | rel hr => exact absurd hr h1

theorem strLt_iff (a b : String) : strLt a b = true ↔ a < b := by
  rw [String.lt_iff_toList_lt]
  exact charListLt_iff a.toList b.toList

/- ### Claim C1 -/

/-- C1: for volatility input `iv` and a horizon of `d ≥ 1` calendar days the
Baseline Calculator produces `em = alpha * iv * sqrt(d / 365)` (with `alpha`
defaulting to `EM_ALPHA = 1.0`), inner band exactly `[0.75*em, 1.25*em]` and
outer band exactly `[0.50*em, 1.50*em]`; and for `iv = 0.20`, `d = 7` the
expected move is approximately `0.02768`, the inner band approximately
`[0.02076, 0.03460]` and the outer band approximately `[0.01384, 0.04152]`
(each within `10⁻⁴` of the produced value). -/
theorem baseline_em_formula_and_example :
    (∀ (alpha iv : ℝ) (d : ℕ), 1 ≤ d →
      (compute_baseline_bands alpha iv d).em_baseline = alpha * iv * Real.sqrt ((d : ℝ) / 365) ∧
      (compute_baseline_bands alpha iv d).band68_low =
        0.75 * (alpha * iv * Real.sqrt ((d : ℝ) / 365)) ∧
      (compute_baseline_bands alpha iv d).band68_high =
        1.25 * (alpha * iv * Real.sqrt ((d : ℝ) / 365)) ∧
      (compute_baseline_bands alpha iv d).band95_low =
        0.50 * (alpha * iv * Real.sqrt ((d : ℝ) / 365)) ∧
      (compute_baseline_bands alpha iv d).band95_high =
        1.50 * (alpha * iv * Real.sqrt ((d : ℝ) / 365))) ∧
    (|(compute_baseline_bands EM_ALPHA 0.2 7).em_baseline - 0.02768| < 0.0001 ∧
      |(compute_baseline_bands EM_ALPHA 0.2 7).band68_low - 0.02076| < 0.0001 ∧
      |(compute_baseline_bands EM_ALPHA 0.2 7).band68_high - 0.03460| < 0.0001 ∧
      |(compute_baseline_bands EM_ALPHA 0.2 7).band95_low - 0.01384| < 0.0001 ∧
      |(compute_baseline_bands EM_ALPHA 0.2 7).band95_high - 0.04152| < 0.0001) := by
  constructor
  · intro alpha iv d hd
    exact ⟨rfl, rfl, rfl, rfl, rfl⟩
  · have h365 : ((7:ℕ):ℝ) / 365 = 7 / 365 := by norm_num
    have hlo : (0.13848:ℝ) < Real.sqrt (((7:ℕ):ℝ) / 365) := by
      rw [h365]
      exact (Real.lt_sqrt (by norm_num)).mpr (by norm_num)
    have hhi : Real.sqrt (((7:ℕ):ℝ) / 365) < 0.13849 := by
      rw [h365]
      exact (Real.sqrt_lt' (by norm_num)).mpr (by norm_num)
    refine ⟨?_, ?_, ?_, ?_, ?_⟩ <;>
      · simp only [compute_baseline_bands, em_of, EM_ALPHA]
        rw [abs_sub_lt_iff]
        constructor <;> nlinarith [hlo, hhi]

/-- Witness for C1, applied at `alpha = 1`, `iv = 0.2`, `d = 7`. -/
theorem baseline_em_formula_and_example_witness :
    (1:ℕ) ≤ 7 ∧
      ((compute_baseline_bands 1 0.2 7).em_baseline = 1 * 0.2 * Real.sqrt (((7:ℕ) : ℝ) / 365) ∧
        (compute_baseline_bands 1 0.2 7).band68_low =
          0.75 * (1 * 0.2 * Real.sqrt (((7:ℕ) : ℝ) / 365)) ∧
        (compute_baseline_bands 1 0.2 7).band68_high =
          1.25 * (1 * 0.2 * Real.sqrt (((7:ℕ) : ℝ) / 365)) ∧
        (compute_baseline_bands 1 0.2 7).band95_low =
          0.50 * (1 * 0.2 * Real.sqrt (((7:ℕ) : ℝ) / 365)) ∧
        (compute_baseline_bands 1 0.2 7).band95_high =
          1.50 * (1 * 0.2 * Real.sqrt (((7:ℕ) : ℝ) / 365))) :=
  ⟨by norm_num, baseline_em_formula_and_example.1 1 0.2 7 (by norm_num)⟩

/- ### Claim C2 -/

/-- C2: for every `iv ≥ 0` and horizon of `d ≥ 1` calendar days, the record
produced by the Baseline Calculator (at the default `EM_ALPHA`) satisfies the
nested-band ordering `band95_low ≤ band68_low ≤ em ≤ band68_high ≤ band95_high`. -/
theorem baseline_bands_nested (iv : ℝ) (d : ℕ) (hiv : 0 ≤ iv) (hd : 1 ≤ d) :
    (compute_baseline_bands EM_ALPHA iv d).band95_low ≤
        (compute_baseline_bands EM_ALPHA iv d).band68_low ∧
      (compute_baseline_bands EM_ALPHA iv d).band68_low ≤
        (compute_baseline_bands EM_ALPHA iv d).em_baseline ∧
      (compute_baseline_bands EM_ALPHA iv d).em_baseline ≤
        (compute_baseline_bands EM_ALPHA iv d).band68_high ∧
      (compute_baseline_bands EM_ALPHA iv d).band68_high ≤
        (compute_baseline_bands EM_ALPHA iv d).band95_high := by
  have hem : 0 ≤ em_of EM_ALPHA iv d := by
    unfold em_of EM_ALPHA
    exact mul_nonneg (mul_nonneg (by norm_num) hiv) (Real.sqrt_nonneg _)
  simp only [compute_baseline_bands]
  exact ⟨by nlinarith, by nlinarith, by nlinarith, by nlinarith⟩

/-- Witness for C2, applied at `iv = 0.2`, `d = 7`. -/
theorem baseline_bands_nested_witness :
    (0:ℝ) ≤ 0.2 ∧ (1:ℕ) ≤ 7 ∧
      ((compute_baseline_bands EM_ALPHA 0.2 7).band95_low ≤
          (compute_baseline_bands EM_ALPHA 0.2 7).band68_low ∧
        (compute_baseline_bands EM_ALPHA 0.2 7).band68_low ≤
          (compute_baseline_bands EM_ALPHA 0.2 7).em_baseline ∧
        (compute_baseline_bands EM_ALPHA 0.2 7).em_baseline ≤
          (compute_baseline_bands EM_ALPHA 0.2 7).band68_high ∧
        (compute_baseline_bands EM_ALPHA 0.2 7).band68_high ≤
          (compute_baseline_bands EM_ALPHA 0.2 7).band95_high) :=
  ⟨by norm_num, by norm_num, baseline_bands_nested 0.2 7 (by norm_num) (by norm_num)⟩

/- ### Claim C10 -/

/-- C10: a missing stored volatility and a stored volatility of exactly `0.0`
both fall back to `0.2` (both are falsy under Python's `or`), so a stored zero
is indistinguishable from a missing value, and the expected move computed from
a zero stored volatility is strictly positive for every horizon `d ≥ 1`. -/
theorem zero_iv_uses_fallback :
    latest_iv_or_fallback none = 0.2 ∧
      latest_iv_or_fallback (some 0) = latest_iv_or_fallback none ∧
      (∀ d : ℕ, 1 ≤ d →
        0 < em_of EM_ALPHA ((latest_iv_or_fallback (some 0) : ℚ) : ℝ) d) := by
  refine ⟨rfl, rfl, fun d hd => ?_⟩
  have hq : ((latest_iv_or_fallback (some 0) : ℚ) : ℝ) = 0.2 := by
    norm_num [latest_iv_or_fallback]
  rw [hq]
  unfold em_of EM_ALPHA
  have hdpos : (0:ℝ) < (d : ℝ) / 365 := by
    have hd0 : (0:ℝ) < (d : ℝ) := by
      exact_mod_cast Nat.lt_of_lt_of_le Nat.zero_lt_one hd
    positivity
  have hs : 0 < Real.sqrt ((d : ℝ) / 365) := Real.sqrt_pos.mpr hdpos
  nlinarith [hs]

/-- Witness for C10, applied at `d = 7`. -/
theorem zero_iv_uses_fallback_witness :
    (1:ℕ) ≤ 7 ∧ 0 < em_of EM_ALPHA ((latest_iv_or_fallback (some 0) : ℚ) : ℝ) 7 :=
  ⟨by norm_num, zero_iv_uses_fallback.2.2 7 (by norm_num)⟩

/- ### Claim C8 -/

/-- C8: for every input batch and prediction mapping, the Quantile Blender
keeps every key field and `baseline_move` (`em_baseline`) unchanged, returns
any record whose key is absent from the mapping exactly as it was input, and
for a record whose key is present replaces exactly those band fields whose
mapped prediction is non-null. -/
theorem merge_predictions_frame (rows : List FRow)
    (preds : List ((String × ℕ × ℕ × String) × BandPred)) :
    List.Forall₂ (fun r out =>
        out.underlying = r.underlying ∧ out.quote_ts = r.quote_ts ∧
        out.exp_date = r.exp_date ∧ out.horizon = r.horizon ∧
        out.em_baseline = r.em_baseline ∧
        (predLookup preds r.key = none → out = r) ∧
        (∀ p, predLookup preds r.key = some p →
          out.band68_low = p.band68_low.getD r.band68_low ∧
          out.band68_high = p.band68_high.getD r.band68_high ∧
          out.band95_low = p.band95_low.getD r.band95_low ∧
          out.band95_high = p.band95_high.getD r.band95_high))
      rows (merge_predictions_into_rows rows preds) := by
  unfold merge_predictions_into_rows
  by_cases hp : preds = []
  · subst hp
    rw [if_pos rfl]
    refine List.forall₂_same.mpr (fun r _ => ?_)
    refine ⟨rfl, rfl, rfl, rfl, rfl, fun _ => rfl, fun p hlk => ?_⟩
    simp [predLookup] at hlk
  · rw [if_neg hp, List.forall₂_map_right_iff]
    refine List.forall₂_same.mpr (fun r _ => ?_)
    cases hlk : predLookup preds r.key with
    | none => simp [hlk]
    | some p => simp [hlk, applyPred]

/- ### Claim C9 -/

/-- C9: the Quantile Blender is a pure function of its batch and mapping
(equal inputs give equal outputs), and it is idempotent: blending the same
mapping twice yields the same batch as blending it once. -/
theorem merge_predictions_pure_and_idempotent :
    (∀ (rows rows' : List FRow)
        (preds preds' : List ((String × ℕ × ℕ × String) × BandPred)),
        rows = rows' → preds = preds' →
        merge_predictions_into_rows rows preds =
          merge_predictions_into_rows rows' preds') ∧
    (∀ (rows : List FRow) (preds : List ((String × ℕ × ℕ × String) × BandPred)),
        merge_predictions_into_rows (merge_predictions_into_rows rows preds) preds =
          merge_predictions_into_rows rows preds) := by
  constructor
  · intro rows rows' preds preds' h1 h2
    rw [h1, h2]
  · intro rows preds
    unfold merge_predictions_into_rows
    by_cases hp : preds = []
    · rw [if_pos hp]
    · rw [if_neg hp, if_neg hp, List.map_map]
      refine List.map_congr_left (fun r _ => ?_)
      cases hlk : predLookup preds r.key with
      | none => simp only [Function.comp_apply, hlk]
      | some p =>
        have hkey : (applyPred r p).key = r.key := rfl
        simp only [Function.comp_apply, hlk, hkey]
        obtain ⟨b1, b2, b3, b4⟩ := p
        cases b1 <;> cases b2 <;> cases b3 <;> cases b4 <;> rfl

/-- Witness for C9, applied at a concrete batch and the empty mapping. -/
theorem merge_predictions_pure_and_idempotent_witness :
    merge_predictions_into_rows [sampleRow1] [] =
      merge_predictions_into_rows [sampleRow1] [] :=
  merge_predictions_pure_and_idempotent.1 [sampleRow1] [sampleRow1] [] [] rfl rfl

/- ### Claim C5 -/

/-- C5 counterexample: in federated mode, when the DuckDB adapter raises and
the Postgres adapter returns data, `get_latest_for_symbol_exp` does not return
the successful adapter's data — the error propagates and fails the call. -/
theorem hybrid_error_hides_data_counterexample :
    hybrid_get_latest_for_symbol_exp (Except.error "duckdb failure")
        (Except.ok (some sampleRow1)) = Except.error "duckdb failure" ∧
      hybrid_get_latest_for_symbol_exp (Except.error "duckdb failure")
        (Except.ok (some sampleRow1)) ≠ Except.ok (some sampleRow1) :=
  ⟨rfl, fun h => nomatch h⟩

/-- C5 amended: in federated mode an uncaught error from either underlying
adapter propagates and fails the whole operation (for every read operation,
with the DuckDB error winning since it is awaited first), and an error from
the only configured adapter in a single-store mode is likewise fatal. -/
theorem hybrid_error_fatality :
    (∀ (e : String) (p : Except String (List FRow)),
        hybrid_get_latest_forecasts (Except.error e) p = Except.error e) ∧
    (∀ (e : String) (dv : List FRow),
        hybrid_get_latest_forecasts (Except.ok dv) (Except.error e) = Except.error e) ∧
    (∀ (e : String) (p : Except String (Option FRow)),
        hybrid_get_latest_for_symbol_exp (Except.error e) p = Except.error e) ∧
    (∀ (e : String) (dv : Option FRow),
        hybrid_get_latest_for_symbol_exp (Except.ok dv) (Except.error e) = Except.error e) ∧
    (∀ (e : String) (last w : ℕ) (pgFn : ℕ → Except String (List HistRow)),
        hybrid_get_history_for_symbol_exp last (fun _ => Except.error e) pgFn w =
          Except.error e) ∧
    (∀ (e : String) (last w : ℕ) (dv : List HistRow),
        hybrid_get_history_for_symbol_exp last (fun _ => Except.ok dv)
          (fun _ => Except.error e) w = Except.error e) ∧
    (∀ (e : String) (p : Except String (List ℕ)),
        hybrid_get_expiries (Except.error e) p = Except.error e) ∧
    (∀ (e : String) (dv : List ℕ),
        hybrid_get_expiries (Except.ok dv) (Except.error e) = Except.error e) ∧
    (∀ (e : String) (p : Except String (List SymCount)),
        hybrid_get_symbols (Except.error e) p = Except.error e) ∧
    (∀ (e : String) (dv : List SymCount),
        hybrid_get_symbols (Except.ok dv) (Except.error e) = Except.error e) ∧
    (∀ (e : String) (last w : ℕ) (pgFn : ℕ → Except String (List HorRow)),
        hybrid_get_symbol_history_all_horizons last (fun _ => Except.error e) pgFn w =
          Except.error e) ∧
    (∀ (e : String) (last w : ℕ) (dv : List HorRow),
        hybrid_get_symbol_history_all_horizons last (fun _ => Except.ok dv)
          (fun _ => Except.error e) w = Except.error e) ∧
    (∀ (e : String) (duck : Except String (Option FRow)),
        dispatch_latest_for_symbol_exp BackendMode.postgres duck (Except.error e) =
          Except.error e) ∧
    (∀ (e : String) (pg : Except String (Option FRow)),
        dispatch_latest_for_symbol_exp BackendMode.duckdb (Except.error e) pg =
          Except.error e) :=
  ⟨fun _ _ => rfl, fun _ _ => rfl, fun _ _ => rfl, fun _ _ => rfl,
    fun _ _ _ _ => rfl, fun _ _ _ _ => rfl, fun _ _ => rfl, fun _ _ => rfl,
    fun _ _ => rfl, fun _ _ => rfl, fun _ _ _ _ => rfl, fun _ _ _ _ => rfl,
    fun _ _ => rfl, fun _ _ => rfl⟩

/- ### Claim C4 -/

/-- C4 counterexample: the `/em/forecast` (single-expiration) read path serves
a cached payload purely because it is still present in Redis; at time 10500 it
serves an entry written at 10000 whose only embedded timestamp (`quote_ts = 0`)
is more than the claimed 10-minute threshold old, so a cached payload is
returned without any check of a generation timestamp embedded in the payload. -/
theorem em_forecast_no_embedded_freshness_check :
    (em_forecast_endpoint (some (em_forecast_cache_write staleEmPayload 10000))
        freshEmPayload 10500).fromCache = true ∧
      (em_forecast_endpoint (some (em_forecast_cache_write staleEmPayload 10000))
        freshEmPayload 10500).payload = staleEmPayload ∧
      600 ≤ 10500 - staleEmPayload.quote_ts := by
  refine ⟨rfl, rfl, by decide⟩

/-- C4 amended: aggregate forecast lookups serve a cached payload only while
both the Redis entry is alive and the embedded generation timestamp is younger
than 5 minutes, giving the `[t0, t0+300)` freshness law, and a payload whose
embedded timestamp is 5 minutes old is never served even if still in storage;
single-expiration (`/em/forecast`) lookups perform no embedded-timestamp
check — they serve exactly what is still present in Redis, so their freshness
window `[t0, t0+600)` comes solely from the 600-second storage TTL set at
write time. -/
theorem cache_freshness_semantics :
    (∀ (p fresh : AggPayload) (t0 now : ℕ), p.timestamp = t0 → t0 ≤ now →
      ((now < t0 + 300 →
          expected_move_endpoint (some (cache_forecast p t0)) fresh now =
            { payload := p, fromCache := true }) ∧
        (t0 + 300 ≤ now →
          expected_move_endpoint (some (cache_forecast p t0)) fresh now =
            { payload := fresh, fromCache := false }))) ∧
    (∀ (fresh : AggPayload) (e : CacheEntry AggPayload) (now : ℕ),
        e.value.timestamp + 300 ≤ now →
        (expected_move_endpoint (some e) fresh now).fromCache = false) ∧
    (∀ (p fresh : EmPayload) (t0 now : ℕ), t0 ≤ now →
      ((now < t0 + 600 →
          em_forecast_endpoint (some (em_forecast_cache_write p t0)) fresh now =
            { payload := p, fromCache := true }) ∧
        (t0 + 600 ≤ now →
          em_forecast_endpoint (some (em_forecast_cache_write p t0)) fresh now =
            { payload := fresh, fromCache := false }))) ∧
    (∀ (entry : Option (CacheEntry EmPayload)) (fresh : EmPayload) (now : ℕ),
        (em_forecast_endpoint entry fresh now).fromCache =
          (redis_get entry now).isSome) := by
  refine ⟨?_, ?_, ?_, ?_⟩
  · intro p fresh t0 now ht hle
    subst ht
    constructor
    · intro h1
      have h2 : now - p.timestamp < 300 := by omega
      simp [expected_move_endpoint, get_cached_forecast, redis_get, cache_forecast, h1, h2]
    · intro h2
      have hp : ¬ (now < p.timestamp + 300) := by omega
      simp [expected_move_endpoint, get_cached_forecast, redis_get, cache_forecast, hp]
  · intro fresh e now hstale
    have h3 : ¬ (now - e.value.timestamp < 300) := by omega
    by_cases hp : now < e.writeTime + e.ttl
    · simp [expected_move_endpoint, get_cached_forecast, redis_get, hp, h3]
    · simp [expected_move_endpoint, get_cached_forecast, redis_get, hp]
  · intro p fresh t0 now hle
    constructor
    · intro h1
      simp [em_forecast_endpoint, redis_get, em_forecast_cache_write, h1]
    · intro h2
      have hp : ¬ (now < t0 + 600) := by omega
      simp [em_forecast_endpoint, redis_get, em_forecast_cache_write, hp]
  · intro entry fresh now
    cases entry with
    | none => rfl
    | some c =>
      by_cases hp : now < c.writeTime + c.ttl
      · simp [em_forecast_endpoint, redis_get, hp]
      · simp [em_forecast_endpoint, redis_get, hp]

/-- Witness for C4, applied at a concrete payload, write time 1000 and request
time 1100. -/
theorem cache_freshness_semantics_witness :
    sampleAggPayload.timestamp = 1000 ∧ (1000:ℕ) ≤ 1100 ∧
      ((1100 < 1000 + 300 →
          expected_move_endpoint (some (cache_forecast sampleAggPayload 1000))
            sampleAggPayload 1100 = { payload := sampleAggPayload, fromCache := true }) ∧
        (1000 + 300 ≤ 1100 →
          expected_move_endpoint (some (cache_forecast sampleAggPayload 1000))
            sampleAggPayload 1100 = { payload := sampleAggPayload, fromCache := false })) :=
  ⟨rfl, by norm_num,
    cache_freshness_semantics.1 sampleAggPayload sampleAggPayload 1000 1100 rfl (by norm_num)⟩

/- ### Claim C6 -/

theorem countFor_append (s : String) (l₁ l₂ : List SymCount) :
    countFor s (l₁ ++ l₂) = countFor s l₁ + countFor s l₂ := by
  simp [countFor, List.filter_append]

theorem countFor_cons (s : String) (x : SymCount) (l : List SymCount) :
    countFor s (x :: l) =
      (if x.symbol = s then x.forecast_count else 0) + countFor s l := by
  by_cases h : x.symbol = s <;> simp [countFor, List.filter_cons, h]

theorem countFor_addCount (acc : List SymCount) (s s' : String) (c : ℕ) :
    countFor s (addCount acc s' c) = countFor s acc + (if s' = s then c else 0) := by
  induction acc with
  | nil =>
    by_cases h : s' = s <;> simp [addCount, countFor_cons, countFor, h]
  | cons x xs ih =>
    by_cases hx : x.symbol = s'
    · have e1 : addCount (x :: xs) s' c =
          { symbol := s', forecast_count := x.forecast_count + c } :: xs := by
        simp [addCount, hx]
      rw [e1, countFor_cons, countFor_cons]
      by_cases h : s' = s
      · have hxs : x.symbol = s := by rw [hx, h]
        simp only [h, hxs, eq_self_iff_true, if_true]
        omega
      · have hxs : ¬ x.symbol = s := by
          rw [hx]
          exact h
        simp only [if_neg h, if_neg hxs]
        omega
    · have e1 : addCount (x :: xs) s' c = x :: addCount xs s' c := by
        simp [addCount, hx]
      rw [e1, countFor_cons, countFor_cons, ih]
      omega

theorem countFor_fold (s : String) (l : List SymCount) : ∀ acc : List SymCount,
    countFor s (l.foldl (fun acc r => addCount acc r.symbol r.forecast_count) acc) =
      countFor s acc + countFor s l := by
  induction l with
  | nil => intro acc; simp [countFor]
  | cons r rs ih =>
    intro acc
    rw [List.foldl_cons, ih, countFor_addCount]
    by_cases h : r.symbol = s <;> simp [countFor, List.filter_cons, h] <;> omega

theorem countFor_aggregate (s : String) (l : List SymCount) :
    countFor s (aggregate_symbol_counts l) = countFor s l := by
  have h := countFor_fold s l []
  simpa [aggregate_symbol_counts, countFor] using h

/-- The lexicographic `(forecast_count, symbol)` sort key of a record. -/
theorem symGe_iff (a b : SymCount) :
    symGe a b ↔ toLex (b.forecast_count, b.symbol) ≤ toLex (a.forecast_count, a.symbol) := by
  unfold symGe
  rw [Prod.Lex.le_iff]
  simp [strLt_iff, le_iff_lt_or_eq]

instance : IsTotal SymCount symGe :=
  ⟨fun a b => by
    rw [symGe_iff, symGe_iff]
    exact le_total _ _⟩

instance : IsTrans SymCount symGe :=
  ⟨fun a b c h1 h2 => by
    rw [symGe_iff] at h1 h2 ⊢
    exact le_trans h2 h1⟩

/-- C6 counterexample: with counts tied, the federated symbols-with-counts
operation orders instruments descending ("B" before "A"), because Python's
`sort(key=(count, symbol), reverse=True)` reverses the tie-break as well; the
claimed ascending tie-break would return "A" first. -/
theorem hybrid_symbols_tiebreak_descending :
    hybrid_get_symbols (Except.ok [{ symbol := "A", forecast_count := 1 }])
        (Except.ok [{ symbol := "B", forecast_count := 1 }]) =
      Except.ok [{ symbol := "B", forecast_count := 1 },
        { symbol := "A", forecast_count := 1 }] ∧
      hybrid_get_symbols (Except.ok [{ symbol := "A", forecast_count := 1 }])
        (Except.ok [{ symbol := "B", forecast_count := 1 }]) ≠
      Except.ok [{ symbol := "A", forecast_count := 1 },
        { symbol := "B", forecast_count := 1 }] := by
  constructor
  · rfl
  · intro h
    rw [show hybrid_get_symbols (Except.ok [{ symbol := "A", forecast_count := 1 }])
        (Except.ok [{ symbol := "B", forecast_count := 1 }]) =
      Except.ok [{ symbol := "B", forecast_count := 1 },
        { symbol := "A", forecast_count := 1 }] from rfl] at h
    have h2 := congrArg (fun x => match x with
      | Except.ok l => l
      | Except.error _ => []) h
    simp at h2

/-- C6 amended: the federated symbols-with-counts operation sums the counts
per instrument across the two stores (no deduplication) and sorts the result
by summed count descending with instrument *descending* — not ascending — as
the tie-break for equal counts (`symGe` is exactly the dual lexicographic
order on `(forecast_count, symbol)`), truncated to 100 records. -/
theorem hybrid_symbols_aggregation :
    (∀ (ds ps : List SymCount) (s : String),
        countFor s (aggregate_symbol_counts (ds ++ ps)) =
          countFor s ds + countFor s ps) ∧
    (∀ ds ps : List SymCount,
        hybrid_get_symbols (Except.ok ds) (Except.ok ps) =
          Except.ok ((List.insertionSort symGe
            (aggregate_symbol_counts (ds ++ ps))).take 100)) ∧
    (∀ ds ps : List SymCount,
        List.Sorted symGe ((List.insertionSort symGe
          (aggregate_symbol_counts (ds ++ ps))).take 100)) ∧
    (∀ a b : SymCount,
        symGe a b ↔
          toLex (b.forecast_count, b.symbol) ≤ toLex (a.forecast_count, a.symbol)) := by
  refine ⟨?_, ?_, ?_, symGe_iff⟩
  · intro ds ps s
    rw [countFor_aggregate, countFor_append]
  · intro ds ps
    rfl
  · intro ds ps
    exact (List.sorted_insertionSort symGe _).sublist (List.take_sublist _ _)

/- ### Claim C3 -/

theorem rowle_iff (a b : SRow) :
    rowle a b ↔
      toLex (a.underlying, toLex (a.quote_ts, toLex (a.exp_date, a.horizon))) ≤
        toLex (b.underlying, toLex (b.quote_ts, toLex (b.exp_date, b.horizon))) := by
  unfold rowle rowLeB
  rw [Prod.Lex.le_iff, Prod.Lex.le_iff, Prod.Lex.le_iff]
  simp [strLt_iff, le_iff_lt_or_eq]

instance : IsTotal SRow rowle :=
  ⟨fun a b => by
    rw [rowle_iff, rowle_iff]
    exact le_total _ _⟩

instance : IsTrans SRow rowle :=
  ⟨fun a b c h1 h2 => by
    rw [rowle_iff] at h1 h2 ⊢
    exact le_trans h1 h2⟩

theorem filter_dedupKeepLast_append_last (l : List SRow) (x : SRow)
    (k : String × ℕ × ℕ × String) (hxk : x.key = k) :
    (dedupKeepLast (l ++ [x])).filter (fun s => decide (s.key = k)) = [x] := by
  induction l with
  | nil => simp [dedupKeepLast, hxk]
  | cons a as ih =>
    rw [List.cons_append]
    by_cases h : ((as ++ [x]).any (fun y => decide (y.key = a.key))) = true
    · rw [show dedupKeepLast (a :: (as ++ [x])) = dedupKeepLast (as ++ [x]) from by
        simp [dedupKeepLast, h]]
      exact ih
    · have hax : ¬ (a.key = k) := by
        intro hc
        apply h
        refine List.any_eq_true.mpr ⟨x, List.mem_append_right as (List.mem_singleton_self x), ?_⟩
        simp [hxk, hc]
      rw [show dedupKeepLast (a :: (as ++ [x])) = a :: dedupKeepLast (as ++ [x]) from by
        simp [dedupKeepLast, h]]
      rw [List.filter_cons_of_neg (by simp [hax])]
      exact ih

theorem upsert_second_write_wins (l : List SRow) (r : FRow) (t : ℕ) :
    (upsert_parquet_forecasts [r] t (PriorState.ok l)).rows.filter
      (fun s => decide (s.key = r.key)) = [attachCreated t r] := by
  show (sortByKey (dedupKeepLast (l ++ [attachCreated t r]))).filter
      (fun s => decide (s.key = r.key)) = [attachCreated t r]
  have hfil := (List.perm_insertionSort rowle
      (dedupKeepLast (l ++ [attachCreated t r]))).filter
      (fun s => decide (s.key = r.key))
  rw [filter_dedupKeepLast_append_last _ (attachCreated t r) r.key rfl] at hfil
  exact List.perm_singleton.mp hfil

/-- C3 counterexample: with an absent prior dataset the sink does not apply
the claimed empty-prior concatenate-and-deduplicate pipeline: for a batch
that repeats one identity key, the claimed pipeline would leave exactly one
record for that key, while the sink (which skips the dedup step when the file
is absent) keeps both occurrences. -/
theorem upsert_absent_not_dedup_counterexample :
    (upsert_parquet_forecasts [sampleRow1, sampleRow2] 0 PriorState.absent).rows ≠
      sortByKey (dedupKeepLast ([] ++ [sampleRow1, sampleRow2].map (attachCreated 0))) ∧
      ((upsert_parquet_forecasts [sampleRow1, sampleRow2] 0 PriorState.absent).rows.filter
        (fun s => decide (s.key = sampleRow2.key))).length = 2 :=
  ⟨by decide, by decide⟩

/-- C3, amended: when the prior dataset file exists (its rows read, or
recovered as empty when corrupt), the sink concatenates the prior rows with
the new rows, deduplicates by identity key keeping the last occurrence (new
rows win), and sorts by key; when the file is absent the new rows are sorted
and written without the dedup step. Consequently, writing key K twice in
sequence with different payloads — the second write reading the first write's
output — leaves exactly one record for K, equal to the second payload,
whether the first write found a readable prior dataset or none at all, and
the replaced dataset is sorted by identity key. -/
theorem upsert_dedup_pipeline_semantics (prior : List SRow) (r1 r2 : FRow)
    (t1 t2 : ℕ) (hk : r1.key = r2.key) :
    ((∀ (new : List FRow) (old : List SRow),
        (upsert_parquet_forecasts new t1 (PriorState.ok old)).rows =
          sortByKey (dedupKeepLast (old ++ new.map (attachCreated t1)))) ∧
      (∀ new : List FRow,
        (upsert_parquet_forecasts new t1 PriorState.absent).rows =
          sortByKey (new.map (attachCreated t1)))) ∧
    ((upsert_parquet_forecasts [r2] t2 (PriorState.ok
        (upsert_parquet_forecasts [r1] t1 (PriorState.ok prior)).rows)).rows.filter
        (fun s => decide (s.key = r2.key)) = [attachCreated t2 r2]) ∧
    ((upsert_parquet_forecasts [r2] t2 (PriorState.ok
        (upsert_parquet_forecasts [r1] t1 PriorState.absent).rows)).rows.filter
        (fun s => decide (s.key = r2.key)) = [attachCreated t2 r2]) ∧
    List.Sorted rowle (upsert_parquet_forecasts [r2] t2 (PriorState.ok
        (upsert_parquet_forecasts [r1] t1 (PriorState.ok prior)).rows)).rows ∧
    List.Sorted rowle (upsert_parquet_forecasts [r2] t2 (PriorState.ok
        (upsert_parquet_forecasts [r1] t1 PriorState.absent).rows)).rows := by
  refine ⟨⟨fun new old => rfl, fun new => rfl⟩,
    upsert_second_write_wins _ r2 t2, upsert_second_write_wins _ r2 t2, ?_, ?_⟩
  · exact List.sorted_insertionSort rowle _
  · exact List.sorted_insertionSort rowle _

/-- Witness for C3: two concrete rows sharing an identity key, written in
sequence, at `prior = []`, `t1 = 0`, `t2 = 1`. -/
theorem upsert_dedup_pipeline_semantics_witness :
    sampleRow1.key = sampleRow2.key ∧
      (((∀ (new : List FRow) (old : List SRow),
          (upsert_parquet_forecasts new 0 (PriorState.ok old)).rows =
            sortByKey (dedupKeepLast (old ++ new.map (attachCreated 0)))) ∧
        (∀ new : List FRow,
          (upsert_parquet_forecasts new 0 PriorState.absent).rows =
            sortByKey (new.map (attachCreated 0)))) ∧
      ((upsert_parquet_forecasts [sampleRow2] 1 (PriorState.ok
          (upsert_parquet_forecasts [sampleRow1] 0 (PriorState.ok [])).rows)).rows.filter
          (fun s => decide (s.key = sampleRow2.key)) = [attachCreated 1 sampleRow2]) ∧
      ((upsert_parquet_forecasts [sampleRow2] 1 (PriorState.ok
          (upsert_parquet_forecasts [sampleRow1] 0 PriorState.absent).rows)).rows.filter
          (fun s => decide (s.key = sampleRow2.key)) = [attachCreated 1 sampleRow2]) ∧
      List.Sorted rowle (upsert_parquet_forecasts [sampleRow2] 1 (PriorState.ok
          (upsert_parquet_forecasts [sampleRow1] 0 (PriorState.ok [])).rows)).rows ∧
      List.Sorted rowle (upsert_parquet_forecasts [sampleRow2] 1 (PriorState.ok
          (upsert_parquet_forecasts [sampleRow1] 0 PriorState.absent).rows)).rows) :=
  ⟨rfl, upsert_dedup_pipeline_semantics [] sampleRow1 sampleRow2 0 1 rfl⟩

/- ### Claim C7 -/

theorem dedupKeepLast_eq_self (l : List SRow) (h : (l.map SRow.key).Nodup) :
    dedupKeepLast l = l := by
  induction l with
  | nil => rfl
  | cons x xs ih =>
    rw [List.map_cons, List.nodup_cons] at h
    have hany : (xs.any (fun y => decide (y.key = x.key))) = false := by
      rw [List.any_eq_false]
      intro y hy
      simp only [decide_eq_true_eq]
      intro hc
      exact h.1 (hc ▸ List.mem_map_of_mem SRow.key hy)
    simp [dedupKeepLast, hany, ih h.2]

/-- C7 counterexample: recovering a corrupt prior dataset emits no warning
(the `except` branch is silent), and an absent prior dataset is not treated
exactly like an empty one — with an absent prior the dedup step is skipped, so
a new batch that repeats a key keeps both occurrences, while an empty prior
dataset keeps only the last. -/
theorem upsert_corrupt_no_warning_counterexample :
    (upsert_parquet_forecasts [sampleRow1] 0 PriorState.corrupt).warned = false ∧
      (upsert_parquet_forecasts [sampleRow1, sampleRow2] 0 PriorState.absent).rows ≠
        (upsert_parquet_forecasts [sampleRow1, sampleRow2] 0 (PriorState.ok [])).rows :=
  ⟨rfl, by decide⟩

/-- C7, amended: during the columnar read-modify-write, a corrupt prior
dataset is treated exactly as an empty dataset but silently (no warning is
emitted), and the read failure does not fail the write path; an absent prior
dataset skips the dedup step, which coincides with empty-dataset treatment
whenever the new batch has no duplicate identity keys. -/
theorem upsert_prior_recovery (new : List FRow) (t : ℕ)
    (hnd : (new.map FRow.key).Nodup) :
    (read_parquet_prior PriorState.corrupt).isOk = false ∧
      upsert_parquet_forecasts new t PriorState.corrupt =
        upsert_parquet_forecasts new t (PriorState.ok []) ∧
      (upsert_parquet_forecasts new t PriorState.corrupt).warned = false ∧
      (upsert_parquet_forecasts new t PriorState.absent).rows =
        (upsert_parquet_forecasts new t (PriorState.ok [])).rows := by
  refine ⟨rfl, rfl, rfl, ?_⟩
  have hkeys : ((new.map (attachCreated t)).map SRow.key).Nodup := by
    rw [List.map_map, show (SRow.key ∘ attachCreated t) = FRow.key from
      funext (fun r => rfl)]
    exact hnd
  show sortByKey (new.map (attachCreated t)) =
    sortByKey (dedupKeepLast ([] ++ new.map (attachCreated t)))
  rw [List.nil_append, dedupKeepLast_eq_self _ hkeys]

/-- Witness for C7 at a concrete single-row batch. -/
theorem upsert_prior_recovery_witness :
    (([sampleRow1].map FRow.key).Nodup) ∧
      ((read_parquet_prior PriorState.corrupt).isOk = false ∧
        upsert_parquet_forecasts [sampleRow1] 0 PriorState.corrupt =
          upsert_parquet_forecasts [sampleRow1] 0 (PriorState.ok []) ∧
        (upsert_parquet_forecasts [sampleRow1] 0 PriorState.corrupt).warned = false ∧
        (upsert_parquet_forecasts [sampleRow1] 0 PriorState.absent).rows =
          (upsert_parquet_forecasts [sampleRow1] 0 (PriorState.ok [])).rows) :=
  ⟨by simp, upsert_prior_recovery [sampleRow1] 0 (by simp)⟩
